import Mathlib

/-!
Verification development for the `httphelper` form scanner
(`value-from-form.go`): a shallow embedding of `ScanFormData`, its error
model (`ScanError`, `ScanErrorType`) and the `Error` formatting method,
together with theorems about lookup order, destination writes, integer and
boolean conversion, and error construction.
-/

namespace Nethelper

/-- Runtime type tag of a scan destination.  The Go code dispatches on the
dynamic type of `ScanField.Value` (a pointer); `unsupported` stands for the
`default` branch of the switch, i.e. every pointer type other than the ten
integer types, `*bool` and `*string`.  Machine-width `int`/`uint` are
modelled as 64-bit, matching the usual platform. -/
inductive GoType where
  | int | int8 | int16 | int32 | int64
  | uint | uint8 | uint16 | uint32 | uint64
  | bool | string | unsupported
  deriving DecidableEq

/-- Value stored in a destination cell.  Signed destinations hold an `Int`,
unsigned ones a `Nat`; the parse functions only ever produce in-range
values for the destination's width. -/
inductive GoValue where
  | vInt : Int → GoValue
  | vUint : Nat → GoValue
  | vBool : Bool → GoValue
  | vString : String → GoValue
  deriving DecidableEq

/-- Caller-owned mutable destinations: a heap of cells addressed by `Nat`.
A Go pointer argument becomes a cell index. -/
abbrev Store := Nat → GoValue

/-- Write value `v` into cell `i` (the effect of `*value = ...` in Go). -/
def writeCell (st : Store) (i : Nat) (v : GoValue) : Store :=
  fun j => if j = i then v else st j

/-- The decoded form: `r.Form`, a mapping from field name to the list of
raw string values submitted under that name. -/
abbrev Form := List (String × List String)

/-- Failure modes of the integer parse functions, mirroring the two
`strconv` error values ErrSyntax and ErrRange. -/
inductive ParseErr where
  | errSyn | errRange
  deriving DecidableEq

/-- Numeric value of a decimal digit character. -/
def digitVal (c : Char) : Nat := c.toNat - 48

/-- Accumulator loop of base-10 digit parsing: consumes the remaining
characters, failing on the first non-digit. -/
def parseNatCore : List Char → Nat → Option Nat
  | [], acc => some acc
  | c :: cs, acc => if c.isDigit then parseNatCore cs (acc * 10 + digitVal c) else none

/-- Parse a non-empty all-digit character list as a base-10 natural. -/
def parseNat (cs : List Char) : Option Nat :=
  if cs = [] then none else parseNatCore cs 0

/-- Parse an optionally signed base-10 integer literal (sign then at least
one digit, nothing else). -/
def parseSigned (cs : List Char) : Option Int :=
  match cs with
  | [] => Option.map (fun n : Nat => (n : Int)) (parseNat [])
  | c :: rest =>
    if c = '+' then Option.map (fun n : Nat => (n : Int)) (parseNat rest)
    else if c = '-' then Option.map (fun n : Nat => -(n : Int)) (parseNat rest)
    else Option.map (fun n : Nat => (n : Int)) (parseNat (c :: rest))

/-- Result of a Go-style integer parse: the returned integer together with
an optional error.  Go's `strconv` functions return a value even on
failure (0 on a syntax error, the clamped range bound on overflow), and
the scanner assigns that value before checking the error. -/
structure ParsedInt where
  value : Int
  err : Option ParseErr
  deriving DecidableEq

/-- Modelled from the spec and the documented behaviour of the external
`strconvhelper.ParseInt*` helpers (thin wrappers over
`strconv.ParseInt(s, 10, bits)`, which is not part of this repository):
base-10, optional leading sign, no whitespace; on a malformed literal the
result is 0 with a syntax error; on overflow the result is the nearer
range bound with a range error. -/
def goParseInt (bits : Nat) (s : String) : ParsedInt :=
  match parseSigned s.toList with
  | none => ⟨0, some ParseErr.errSyn⟩
  | some v =>
    if v < -(2 ^ (bits - 1) : Int) then ⟨-(2 ^ (bits - 1) : Int), some ParseErr.errRange⟩
    else if (2 ^ (bits - 1) : Int) - 1 < v then ⟨(2 ^ (bits - 1) : Int) - 1, some ParseErr.errRange⟩
    else ⟨v, none⟩

/-- Modelled from the spec and the documented behaviour of the external
`strconvhelper.ParseUint*` helpers (`strconv.ParseUint(s, 10, bits)`): no
sign accepted; on a malformed literal the result is 0 with a syntax
error; on overflow the result is the maximum with a range error. -/
def goParseUint (bits : Nat) (s : String) : ParsedInt :=
  match parseNat s.toList with
  | none => ⟨0, some ParseErr.errSyn⟩
  | some n =>
    if (2 ^ bits : Nat) - 1 < n then ⟨((2 ^ bits - 1 : Nat) : Int), some ParseErr.errRange⟩
    else ⟨(n : Int), none⟩

/-- ScanErrorType of the source: the four declared error kinds. -/
inductive ScanErrorType where
  | noSuchField | multipleValues | incompatibleValue | incompatibleType
  deriving DecidableEq

/-- Sub-errors that can be attached to a ScanError: an integer parse
failure or the bool error built in the `*bool` default branch
(`errors.New("'" + stringValue + "' is not a valid bool value.")`). -/
inductive SubError where
  | parseFail : ParseErr → SubError
  | invalidBool : String → SubError
  deriving DecidableEq

/-- ScanError of the source: position, name, kind, optional child error. -/
structure ScanError where
  fieldNum : Nat
  fieldName : String
  type : ScanErrorType
  subError : Option SubError
  deriving DecidableEq

/-- Constructor `scanErrorNoSuchField` of the source. -/
def scanErrorNoSuchField (fieldNum : Nat) (fieldName : String) : ScanError :=
  ⟨fieldNum, fieldName, ScanErrorType.noSuchField, none⟩

/-- Constructor `scanErrorMultipleValues` of the source. -/
def scanErrorMultipleValues (fieldNum : Nat) (fieldName : String) : ScanError :=
  ⟨fieldNum, fieldName, ScanErrorType.multipleValues, none⟩

/-- Constructor `scanErrorIncompatibleValue` of the source. -/
def scanErrorIncompatibleValue (fieldNum : Nat) (fieldName : String) (subError : SubError) :
    ScanError :=
  ⟨fieldNum, fieldName, ScanErrorType.incompatibleValue, some subError⟩

/-- Constructor `scanErrorIncompatibleType` of the source, kept faithful to
the source line, which sets `Type: ScanErrorTypeIncompatibleValue` (not
`...IncompatibleType`). -/
def scanErrorIncompatibleType (fieldNum : Nat) (fieldName : String) : ScanError :=
  ⟨fieldNum, fieldName, ScanErrorType.incompatibleValue, none⟩

/-- ScanField of the source: a field name together with the destination,
split into its runtime type tag and its cell index. -/
structure ScanField where
  name : String
  destType : GoType
  dest : Nat
  deriving DecidableEq

/-- Constant `scanBoolTrueString` of the source. -/
def scanBoolTrueString : String := "on"

/-- Constant `scanBoolFalseString` of the source. -/
def scanBoolFalseString : String := "off"

/-- Outcome of the lookup step at the top of the loop body:
`if stringValues, ok := r.Form[field.Name]; ok && len(stringValues) == 1`. -/
inductive LookupOutcome where
  | notFound
  | multiple
  | one (s : String)
  deriving DecidableEq

/-- Lookup of a field name in the form, classified as in the source: absent
key, present with exactly one value, or present with any other count. -/
def lookupFormValue (form : Form) (name : String) : LookupOutcome :=
  match List.lookup name form with
  | none => LookupOutcome.notFound
  | some vs =>
    match vs with
    | [s] => LookupOutcome.one s
    | _ => LookupOutcome.multiple

/-- Outcome of one arm of the type switch applied to the single string
value: success writes `v`; `failWrite` writes `v` and then fails (the
integer arms assign the parse result before checking the error);
`failNoWrite` fails without writing (bool arm); `failType` is the
`default` arm. -/
inductive ConvOutcome where
  | ok (v : GoValue)
  | failWrite (v : GoValue) (sub : SubError)
  | failNoWrite (sub : SubError)
  | failType
  deriving DecidableEq

/-- Outcome of a signed-integer switch arm, given the parse result: the
parsed value is assigned unconditionally, the error decides the branch. -/
def signedArm (p : ParsedInt) : ConvOutcome :=
  match p.err with
  | none => ConvOutcome.ok (GoValue.vInt p.value)
  | some e => ConvOutcome.failWrite (GoValue.vInt p.value) (SubError.parseFail e)

/-- Outcome of an unsigned-integer switch arm, given the parse result. -/
def unsignedArm (p : ParsedInt) : ConvOutcome :=
  match p.err with
  | none => ConvOutcome.ok (GoValue.vUint p.value.toNat)
  | some e => ConvOutcome.failWrite (GoValue.vUint p.value.toNat) (SubError.parseFail e)

/-- The type switch of `ScanFormData`, one arm per supported pointer type
plus the `default` arm. -/
def convertValue : GoType → String → ConvOutcome
  | GoType.int, s => signedArm (goParseInt 64 s)
  | GoType.int8, s => signedArm (goParseInt 8 s)
  | GoType.int16, s => signedArm (goParseInt 16 s)
  | GoType.int32, s => signedArm (goParseInt 32 s)
  | GoType.int64, s => signedArm (goParseInt 64 s)
  | GoType.uint, s => unsignedArm (goParseUint 64 s)
  | GoType.uint8, s => unsignedArm (goParseUint 8 s)
  | GoType.uint16, s => unsignedArm (goParseUint 16 s)
  | GoType.uint32, s => unsignedArm (goParseUint 32 s)
  | GoType.uint64, s => unsignedArm (goParseUint 64 s)
  | GoType.bool, s =>
    if s = scanBoolTrueString then ConvOutcome.ok (GoValue.vBool true)
    else if s = scanBoolFalseString then ConvOutcome.ok (GoValue.vBool false)
    else ConvOutcome.failNoWrite (SubError.invalidBool s)
  | GoType.string, s => ConvOutcome.ok (GoValue.vString s)
  | GoType.unsupported, _ => ConvOutcome.failType

/-- The loop of `ScanFormData`, carrying the loop index `i` and the current
state of the destination cells.  Each iteration performs the lookup, then
the type switch, returning the first error and the cells as left at that
moment. -/
def scanFormDataAux (form : Form) : Nat → List ScanField → Store → Store × Option ScanError
  | _, [], store => (store, none)
  | i, f :: rest, store =>
    match lookupFormValue form f.name with
    | LookupOutcome.notFound => (store, some (scanErrorNoSuchField i f.name))
    | LookupOutcome.multiple => (store, some (scanErrorMultipleValues i f.name))
    | LookupOutcome.one s =>
      match convertValue f.destType s with
      | ConvOutcome.ok v => scanFormDataAux form (i + 1) rest (writeCell store f.dest v)
      | ConvOutcome.failWrite v sub =>
        (writeCell store f.dest v, some (scanErrorIncompatibleValue i f.name sub))
      | ConvOutcome.failNoWrite sub => (store, some (scanErrorIncompatibleValue i f.name sub))
      | ConvOutcome.failType => (store, some (scanErrorIncompatibleType i f.name))

/-- `ScanFormData` of the source: scan the requests in order starting at
position 0, returning the final destination cells and the first error, if
any. -/
def ScanFormData (form : Form) (fields : List ScanField) (store : Store) :
    Store × Option ScanError :=
  scanFormDataAux form 0 fields store

/-- The fuel-indexed evaluation of the source's `Error` method on
`ScanError`.  `none` means the call did not finish within `fuel` nested
calls.  The `incompatibleValue`-with-sub-error arm mirrors the source's
`return prefix + e.Error()`, which re-invokes the method on the same
receiver; the message head mirrors `"Scan error in #" + string(e.FieldNum)
+ "field with name '" + e.FieldName + "': "` where `string(int)` is Go's
int-to-rune conversion. -/
def scanErrorMessage : Nat → ScanError → Option String
  | 0, _ => none
  | fuel + 1, e =>
    let msgHead := "Scan error in #" ++ String.singleton (Char.ofNat e.fieldNum)
      ++ "field with name '" ++ e.fieldName ++ "': "
    match e.type with
    | ScanErrorType.noSuchField => some (msgHead ++ "no field with such name.")
    | ScanErrorType.multipleValues =>
      some (msgHead ++ "there is more than 1 field with such name.")
    | ScanErrorType.incompatibleValue =>
      match e.subError with
      | some _ => Option.map (fun m => msgHead ++ m) (scanErrorMessage fuel e)
      | none => some (msgHead ++ "unable to parse string to required type.")
    | ScanErrorType.incompatibleType =>
      some (msgHead ++ " type of this field is imcompatible with this function type.")

/-- A fixed all-zero store used as the initial destination state in
concrete instances. -/
def store0 : Store := fun _ => GoValue.vInt 0

/-- View of one loop iteration of `ScanFormData` on a single request:
either it succeeds writing `v`, or it fails after writing `v` (integer
arms), or it fails without writing, recording the error kind and optional
sub-error exactly as the loop builds them. -/
inductive StepView where
  | ok (v : GoValue)
  | errWrite (v : GoValue) (sub : SubError)
  | errNoWrite (t : ScanErrorType) (sub : Option SubError)
  deriving DecidableEq

/-- Classify the loop body's behaviour on one request: the lookup followed
by the type switch. -/
def stepView (form : Form) (f : ScanField) : StepView :=
  match lookupFormValue form f.name with
  | LookupOutcome.notFound => StepView.errNoWrite ScanErrorType.noSuchField none
  | LookupOutcome.multiple => StepView.errNoWrite ScanErrorType.multipleValues none
  | LookupOutcome.one s =>
    match convertValue f.destType s with
    | ConvOutcome.ok v => StepView.ok v
    | ConvOutcome.failWrite v sub => StepView.errWrite v sub
    | ConvOutcome.failNoWrite sub =>
      StepView.errNoWrite ScanErrorType.incompatibleValue (some sub)
    | ConvOutcome.failType => StepView.errNoWrite ScanErrorType.incompatibleValue none

/-- Whether a step succeeds. -/
def StepView.isOk : StepView → Bool
  | StepView.ok _ => true
  | _ => false

/-- Value held by the request's destination cell after the step, given its
value `old` before the step. -/
def StepView.written : StepView → GoValue → GoValue
  | StepView.ok v, _ => v
  | StepView.errWrite v _, _ => v
  | StepView.errNoWrite _ _, old => old

/-- Error produced by the step when the request sits at position `i`. -/
def StepView.errorAt : StepView → Nat → String → Option ScanError
  | StepView.ok _, _, _ => none
  | StepView.errWrite _ sub, i, name =>
    some ⟨i, name, ScanErrorType.incompatibleValue, some sub⟩
  | StepView.errNoWrite t sub, i, name => some ⟨i, name, t, sub⟩

/-- One unrolling of the scan loop, phrased through `stepView`. -/
theorem scanAux_cons (form : Form) (i : Nat) (f : ScanField) (rest : List ScanField)
    (store : Store) :
    scanFormDataAux form i (f :: rest) store =
      match stepView form f with
      | StepView.ok v => scanFormDataAux form (i + 1) rest (writeCell store f.dest v)
      | StepView.errWrite v sub =>
        (writeCell store f.dest v, some ⟨i, f.name, ScanErrorType.incompatibleValue, some sub⟩)
      | StepView.errNoWrite t sub => (store, some ⟨i, f.name, t, sub⟩) := by
  cases hl : lookupFormValue form f.name with
  | notFound =>
    simp [scanFormDataAux, stepView, hl, scanErrorNoSuchField]
  | multiple =>
    simp [scanFormDataAux, stepView, hl, scanErrorMultipleValues]
  | one s =>
    cases hc : convertValue f.destType s with
    | ok v => simp [scanFormDataAux, stepView, hl, hc]
    | failWrite v sub => simp [scanFormDataAux, stepView, hl, hc, scanErrorIncompatibleValue]
    | failNoWrite sub => simp [scanFormDataAux, stepView, hl, hc, scanErrorIncompatibleValue]
    | failType => simp [scanFormDataAux, stepView, hl, hc, scanErrorIncompatibleType]

/-- Frame property of the loop: a cell that is the destination of no
request in the list is never written. -/
theorem scanAux_frame (form : Form) (fields : List ScanField) :
    ∀ (i : Nat) (store : Store) (d : Nat), (∀ f ∈ fields, f.dest ≠ d) →
      (scanFormDataAux form i fields store).1 d = store d := by
  induction fields with
  | nil => intro i store d _; rfl
  | cons f rest ih =>
    intro i store d hd
    rw [scanAux_cons]
    cases hv : stepView form f with
    | ok v =>
      rw [ih (i + 1) (writeCell store f.dest v) d
        (fun g hg => hd g (List.mem_cons_of_mem f hg))]
      have hne : d ≠ f.dest := fun h => hd f (List.mem_cons_self f rest) h.symm
      simp [writeCell, hne]
    | errWrite v sub =>
      have hne : d ≠ f.dest := fun h => hd f (List.mem_cons_self f rest) h.symm
      simp [writeCell, hne]
    | errNoWrite t sub => rfl

/-- C10: scanning an empty sequence of requests succeeds for every source
mapping and leaves every destination cell untouched. -/
theorem scan_empty_requests (form : Form) (store : Store) :
    ScanFormData form [] store = (store, none) := rfl

/-- C2: at the failing input (field present with one value, destination of
an unrecognized type), the scan's error is built by
`scanErrorIncompatibleType`, whose kind is `incompatibleValue` — not the
`incompatibleType` the claim requires. -/
theorem scan_unsupported_kind_bug :
    (ScanFormData [("a", ["x"])] [⟨"a", GoType.unsupported, 0⟩] store0).2
      = some ⟨0, "a", ScanErrorType.incompatibleValue, none⟩ := by
  decide

/-- C8: at the failing input, the scan returns an error of kind
`incompatibleValue` that carries no sub-error, refuting that every
`incompatibleValue`-kinded error carries the underlying conversion
failure. -/
theorem scan_suberror_kind_mismatch :
    ∃ e : ScanError,
      (ScanFormData [("f", ["v"])] [⟨"f", GoType.unsupported, 0⟩]
          (fun _ => GoValue.vBool false)).2 = some e ∧
        e.type = ScanErrorType.incompatibleValue ∧ e.subError = none :=
  ⟨⟨0, "f", ScanErrorType.incompatibleValue, none⟩, by decide, rfl, rfl⟩

/-- C3 counterexample: with the field name absent from the source mapping,
a request with an unsupported destination type fails with `NoSuchField`,
not with the unsupported-type error — the lookup runs before the type
check. -/
theorem scan_unsupported_absent_counterexample :
    (ScanFormData [] [⟨"a", GoType.unsupported, 0⟩] store0).2
      = some (scanErrorNoSuchField 0 "a") ∧
    scanErrorNoSuchField 0 "a" ≠ scanErrorIncompatibleType 0 "a" := by
  constructor
  · decide
  · decide

/-- C3 (amended): for a request with an unsupported destination type the
lookup runs first: an absent name yields `NoSuchField`, a value count
other than one yields `MultipleValues`, and only when the name is present
with exactly one value is the unsupported-type error (as built by
`scanErrorIncompatibleType`) returned; in every case no destination is
written. -/
theorem scan_unsupported_after_lookup (form : Form) (name : String) (d : Nat) (store : Store) :
    ScanFormData form [⟨name, GoType.unsupported, d⟩] store
      = (store,
          some (match lookupFormValue form name with
            | LookupOutcome.notFound => scanErrorNoSuchField 0 name
            | LookupOutcome.multiple => scanErrorMultipleValues 0 name
            | LookupOutcome.one _ => scanErrorIncompatibleType 0 name)) := by
  show scanFormDataAux form 0 [⟨name, GoType.unsupported, d⟩] store = _
  cases h : lookupFormValue form name with
  | notFound => simp [scanFormDataAux, h]
  | multiple => simp [scanFormDataAux, h]
  | one s => simp [scanFormDataAux, h, convertValue]

/-- Splitting the loop at the first failing request: with pairwise-distinct
destination cells, if every request of `pre` succeeds and `fk` fails, the
scan reports `fk`'s error at position `i + pre.length`, each destination of
`pre` holds its step's written value, `fk`'s destination holds what its own
step leaves there (its old value, or the parse result on an integer
failure), and the destinations of `post` are untouched. -/
theorem scanAux_split (form : Form) (pre : List ScanField) :
    ∀ (i : Nat) (store : Store) (fk : ScanField) (post : List ScanField),
      ((pre ++ fk :: post).map ScanField.dest).Nodup →
      (∀ f ∈ pre, (stepView form f).isOk = true) →
      (stepView form fk).isOk = false →
      (scanFormDataAux form i (pre ++ fk :: post) store).2
          = StepView.errorAt (stepView form fk) (i + pre.length) fk.name ∧
        (∀ f ∈ pre, (scanFormDataAux form i (pre ++ fk :: post) store).1 f.dest
          = StepView.written (stepView form f) (store f.dest)) ∧
        (scanFormDataAux form i (pre ++ fk :: post) store).1 fk.dest
          = StepView.written (stepView form fk) (store fk.dest) ∧
        (∀ f ∈ post, (scanFormDataAux form i (pre ++ fk :: post) store).1 f.dest
          = store f.dest) := by
  induction pre with
  | nil =>
    intro i store fk post hnd hpre hk
    rw [List.nil_append] at hnd ⊢
    rw [List.map_cons, List.nodup_cons] at hnd
    obtain ⟨hknot, -⟩ := hnd
    rw [scanAux_cons]
    cases hv : stepView form fk with
    | ok v => rw [hv] at hk; simp [StepView.isOk] at hk
    | errWrite v sub =>
      refine ⟨by simp [StepView.errorAt], ?_, ?_, ?_⟩
      · intro f hf; exact absurd hf (List.not_mem_nil f)
      · simp [StepView.written, writeCell]
      · intro f hf
        have hne : f.dest ≠ fk.dest := by
          intro h
          exact hknot (h ▸ List.mem_map_of_mem ScanField.dest hf)
        simp [writeCell, hne]
    | errNoWrite t sub =>
      refine ⟨by simp [StepView.errorAt], ?_, by simp [StepView.written], ?_⟩
      · intro f hf; exact absurd hf (List.not_mem_nil f)
      · intro f _; rfl
  | cons g pre' ih =>
    intro i store fk post hnd hpre hk
    have hg := hpre g (List.mem_cons_self g pre')
    cases hv : stepView form g with
    | errWrite v sub => rw [hv] at hg; simp [StepView.isOk] at hg
    | errNoWrite t sub => rw [hv] at hg; simp [StepView.isOk] at hg
    | ok v =>
      rw [List.cons_append, List.map_cons, List.nodup_cons] at hnd
      obtain ⟨hgnot, hnd'⟩ := hnd
      have hne : ∀ f' ∈ pre' ++ fk :: post, f'.dest ≠ g.dest := by
        intro f' hf' h
        exact hgnot (h ▸ List.mem_map_of_mem ScanField.dest hf')
      have hpre' : ∀ f ∈ pre', (stepView form f).isOk = true :=
        fun f hf => hpre f (List.mem_cons_of_mem g hf)
      obtain ⟨IH1, IH2, IH3, IH4⟩ :=
        ih (i + 1) (writeCell store g.dest v) fk post hnd' hpre' hk
      rw [List.cons_append, scanAux_cons]
      simp only [hv]
      refine ⟨?_, ?_, ?_, ?_⟩
      · rw [IH1]
        have e : i + 1 + pre'.length = i + (g :: pre').length := by
          simp [List.length_cons]; omega
        rw [e]
      · intro f hf
        rcases List.mem_cons.mp hf with hfg | hf'
        · subst hfg
          rw [hv]
          have := scanAux_frame form (pre' ++ fk :: post) (i + 1)
            (writeCell store f.dest v) f.dest (fun f' hf' => hne f' hf')
          rw [this]
          simp [StepView.written, writeCell]
        · rw [IH2 f hf']
          have hfd : f.dest ≠ g.dest :=
            hne f (List.mem_append_left (fk :: post) hf')
          simp [writeCell, hfd]
      · rw [IH3]
        have hfd : fk.dest ≠ g.dest :=
          hne fk (List.mem_append_right pre' (List.mem_cons_self fk post))
        simp [writeCell, hfd]
      · intro f hf
        rw [IH4 f hf]
        have hfd : f.dest ≠ g.dest :=
          hne f (List.mem_append_right pre' (List.mem_cons_of_mem fk hf))
        simp [writeCell, hfd]

/-- C1 counterexample: a single request whose integer destination fails to
parse — the scan errors at position 0, yet the failing request's own
destination is overwritten (the source assigns the parse result before
checking the error), so it no longer holds its pre-call value. -/
theorem scan_error_path_writes_dest :
    (ScanFormData [("a", ["xyz"])] [⟨"a", GoType.int8, 0⟩] (fun _ => GoValue.vInt 5)).2
      = some (scanErrorIncompatibleValue 0 "a" (SubError.parseFail ParseErr.errSyn)) ∧
    (ScanFormData [("a", ["xyz"])] [⟨"a", GoType.int8, 0⟩] (fun _ => GoValue.vInt 5)).1 0
      = GoValue.vInt 0 := by
  constructor
  · decide
  · decide

/-- C1 (amended): for requests with pairwise-distinct destination cells,
if requests `0..k-1` succeed and request `k` fails, the scan returns
request `k`'s error at position `k`; destinations `0..k-1` hold their
parsed values; destinations `k+1..end` hold their pre-call values; and
the failing request's own destination holds what its step leaves there —
its pre-call value except on an integer conversion failure, where it
holds the parse function's error-path result (the source assigns the
parse result before checking the error). -/
theorem scan_order_preservation (form : Form) (pre : List ScanField) (fk : ScanField)
    (post : List ScanField) (store : Store)
    (hnd : ((pre ++ fk :: post).map ScanField.dest).Nodup)
    (hpre : ∀ f ∈ pre, (stepView form f).isOk = true)
    (hk : (stepView form fk).isOk = false) :
    (ScanFormData form (pre ++ fk :: post) store).2
        = StepView.errorAt (stepView form fk) pre.length fk.name ∧
      (∀ f ∈ pre, (ScanFormData form (pre ++ fk :: post) store).1 f.dest
        = StepView.written (stepView form f) (store f.dest)) ∧
      (ScanFormData form (pre ++ fk :: post) store).1 fk.dest
        = StepView.written (stepView form fk) (store fk.dest) ∧
      (∀ f ∈ post, (ScanFormData form (pre ++ fk :: post) store).1 f.dest = store f.dest) := by
  have h := scanAux_split form pre 0 store fk post hnd hpre hk
  simpa [ScanFormData] using h

/-- Concrete form used by the C1 witness: `"a"` parses as an int8, `"b"`
holds an invalid bool literal, `"c"` a valid one. -/
def wForm : Form := [("a", ["7"]), ("b", ["oops"]), ("c", ["on"])]

/-- Succeeding prefix of the C1 witness. -/
def wPre : List ScanField := [⟨"a", GoType.int8, 0⟩]

/-- Failing request of the C1 witness. -/
def wFk : ScanField := ⟨"b", GoType.bool, 1⟩

/-- Unprocessed suffix of the C1 witness. -/
def wPost : List ScanField := [⟨"c", GoType.bool, 2⟩]

/-- Witness for C1's amended theorem at a concrete scan: one succeeding
int8 request, then a failing bool request, then an unprocessed request. -/
theorem scan_order_preservation_witness :
    (ScanFormData wForm (wPre ++ wFk :: wPost) store0).2
        = StepView.errorAt (stepView wForm wFk) wPre.length wFk.name ∧
      (∀ f ∈ wPre, (ScanFormData wForm (wPre ++ wFk :: wPost) store0).1 f.dest
        = StepView.written (stepView wForm f) (store0 f.dest)) ∧
      (ScanFormData wForm (wPre ++ wFk :: wPost) store0).1 wFk.dest
        = StepView.written (stepView wForm wFk) (store0 wFk.dest) ∧
      (∀ f ∈ wPost, (ScanFormData wForm (wPre ++ wFk :: wPost) store0).1 f.dest
        = store0 f.dest) :=
  scan_order_preservation wForm wPre wFk wPost store0 (by decide) (by decide) (by decide)

/-- C9: evaluated at the failing input, the source's `Error` method never
terminates on an `incompatibleValue` error carrying a sub-error: that arm
re-invokes the method on the same receiver, so no recursion budget
suffices. -/
theorem scanErrorMessage_diverges (fuel : Nat) (e : ScanError)
    (ht : e.type = ScanErrorType.incompatibleValue) (hs : e.subError.isSome = true) :
    scanErrorMessage fuel e = none := by
  induction fuel with
  | zero => rfl
  | succ n ih =>
    cases hsub : e.subError with
    | none => rw [hsub] at hs; simp at hs
    | some sub =>
      simp only [scanErrorMessage, ht, hsub, ih, Option.map_none']

/-- Witness for C9 at a concrete error value and recursion budget. -/
theorem scanErrorMessage_diverges_witness :
    scanErrorMessage 7
      ⟨2, "q", ScanErrorType.incompatibleValue, some (SubError.invalidBool "zz")⟩ = none :=
  scanErrorMessage_diverges 7
    ⟨2, "q", ScanErrorType.incompatibleValue, some (SubError.invalidBool "zz")⟩ rfl rfl

/-- Evaluation of a one-request scan once the lookup yields exactly one
value: the outcome is decided by the type switch on that value. -/
theorem scanFormData_single (form : Form) (name : String) (tt : GoType) (d : Nat)
    (store : Store) (s : String) (hlook : List.lookup name form = some [s]) :
    ScanFormData form [⟨name, tt, d⟩] store
      = match convertValue tt s with
        | ConvOutcome.ok v => (writeCell store d v, none)
        | ConvOutcome.failWrite v sub =>
          (writeCell store d v, some (scanErrorIncompatibleValue 0 name sub))
        | ConvOutcome.failNoWrite sub => (store, some (scanErrorIncompatibleValue 0 name sub))
        | ConvOutcome.failType => (store, some (scanErrorIncompatibleType 0 name)) := by
  cases hc : convertValue tt s <;>
    simp [ScanFormData, scanFormDataAux, lookupFormValue, hlook, hc]

/-- C4: for a request with a supported destination type at loop position
`i`: an absent field name fails with `NoSuchField` at `i` with that name;
a present name whose value count differs from one fails with
`MultipleValues` at `i` with that name; a present name with exactly one
value proceeds to the conversion of that single string, which alone
decides the rest of the iteration. -/
theorem scan_lookup_rules (form : Form) (i : Nat) (f : ScanField) (rest : List ScanField)
    (store : Store) (_hsupp : f.destType ≠ GoType.unsupported) :
    (List.lookup f.name form = none →
        scanFormDataAux form i (f :: rest) store
          = (store, some (scanErrorNoSuchField i f.name))) ∧
      (∀ vs, List.lookup f.name form = some vs → vs.length ≠ 1 →
        scanFormDataAux form i (f :: rest) store
          = (store, some (scanErrorMultipleValues i f.name))) ∧
      (∀ s, List.lookup f.name form = some [s] →
        scanFormDataAux form i (f :: rest) store
          = match convertValue f.destType s with
            | ConvOutcome.ok v => scanFormDataAux form (i + 1) rest (writeCell store f.dest v)
            | ConvOutcome.failWrite v sub =>
              (writeCell store f.dest v, some (scanErrorIncompatibleValue i f.name sub))
            | ConvOutcome.failNoWrite sub =>
              (store, some (scanErrorIncompatibleValue i f.name sub))
            | ConvOutcome.failType => (store, some (scanErrorIncompatibleType i f.name))) := by
  refine ⟨?_, ?_, ?_⟩
  · intro h
    simp [scanFormDataAux, lookupFormValue, h]
  · intro vs h hlen
    cases vs with
    | nil => simp [scanFormDataAux, lookupFormValue, h]
    | cons a t =>
      cases t with
      | nil => simp at hlen
      | cons b t' => simp [scanFormDataAux, lookupFormValue, h]
  · intro s h
    cases hc : convertValue f.destType s <;>
      simp [scanFormDataAux, lookupFormValue, h, hc]

/-- Witness for C4 at a concrete input: an empty form, for which the
lookup of `"a"` is absent, so the scan fails with `NoSuchField`. -/
theorem scan_lookup_rules_witness :
    scanFormDataAux [] 0 [⟨"a", GoType.int8, 0⟩] store0
      = (store0, some (scanErrorNoSuchField 0 "a")) :=
  (scan_lookup_rules [] 0 ⟨"a", GoType.int8, 0⟩ [] store0 (by decide)).1 rfl

/-- C5: with a boolean destination and exactly one value `s`, the literal
"on" writes true, the literal "off" writes false, and any other string —
the comparison is exact, hence case-sensitive and untrimmed — fails with
kind `incompatibleValue` carrying the invalid-literal sub-error, writing
nothing. -/
theorem scan_bool_exact (form : Form) (name : String) (d : Nat) (store : Store) (s : String)
    (hs : List.lookup name form = some [s]) :
    ScanFormData form [⟨name, GoType.bool, d⟩] store
      = if s = "on" then (writeCell store d (GoValue.vBool true), none)
        else if s = "off" then (writeCell store d (GoValue.vBool false), none)
        else (store, some (scanErrorIncompatibleValue 0 name (SubError.invalidBool s))) := by
  rw [scanFormData_single form name GoType.bool d store s hs]
  by_cases h1 : s = "on"
  · simp [convertValue, scanBoolTrueString, h1]
  · by_cases h2 : s = "off"
    · simp [convertValue, scanBoolTrueString, scanBoolFalseString, h1, h2]
    · simp [convertValue, scanBoolTrueString, scanBoolFalseString, h1, h2]

/-- Witness for C5 at a concrete input: the value "ON" differs from the
exact literal "on", so the scan is the invalid-literal failure. -/
theorem scan_bool_exact_witness :
    ScanFormData [("b", ["ON"])] [⟨"b", GoType.bool, 3⟩] store0
      = if "ON" = "on" then (writeCell store0 3 (GoValue.vBool true), none)
        else if "ON" = "off" then (writeCell store0 3 (GoValue.vBool false), none)
        else (store0, some (scanErrorIncompatibleValue 0 "b" (SubError.invalidBool "ON"))) :=
  scan_bool_exact [("b", ["ON"])] "b" 3 store0 "ON" (by decide)

/-- Canonical base-10 character rendering of a natural number: its digits
most-significant first, with `"0"` for zero. -/
def natDecimalChars (n : Nat) : List Char :=
  if n = 0 then ['0'] else ((Nat.digits 10 n).reverse).map Nat.digitChar

/-- Canonical base-10 rendering of an integer: a minus sign for negatives,
then the digits of the absolute value. -/
def intDecimalChars (v : Int) : List Char :=
  if v < 0 then '-' :: natDecimalChars v.natAbs else natDecimalChars v.toNat

/-- String form of the canonical base-10 rendering of an integer. -/
def intDecimal (v : Int) : String := ⟨intDecimalChars v⟩

/-- Characters of a packed string. -/
theorem toList_mk (cs : List Char) : String.toList ⟨cs⟩ = cs := rfl

/-- Decimal digit characters are recognized and decoded by the parser's
primitives. -/
theorem digitChar_spec :
    ∀ d : Nat, d < 10 →
      (Nat.digitChar d).isDigit = true ∧ digitVal (Nat.digitChar d) = d := by
  decide

/-- On an all-digit list the accumulator loop succeeds and computes the
base-10 left fold. -/
theorem parseNatCore_digits :
    ∀ (cs : List Char) (acc : Nat), (∀ c ∈ cs, c.isDigit = true) →
      parseNatCore cs acc = some (cs.foldl (fun a c => a * 10 + digitVal c) acc) := by
  intro cs
  induction cs with
  | nil => intro acc _; rfl
  | cons c t ih =>
    intro acc h
    have hc := h c (List.mem_cons_self c t)
    simp only [parseNatCore, hc, if_true, List.foldl_cons]
    exact ih (acc * 10 + digitVal c) (fun x hx => h x (List.mem_cons_of_mem c hx))

/-- Decoding the rendered digit characters is the plain base-10 fold of
the digit values. -/
theorem foldl_digitChar :
    ∀ (L : List Nat) (acc : Nat), (∀ d ∈ L, d < 10) →
      (L.map Nat.digitChar).foldl (fun a c => a * 10 + digitVal c) acc
        = L.foldl (fun a d => a * 10 + d) acc := by
  intro L
  induction L with
  | nil => intro acc _; rfl
  | cons d T ih =>
    intro acc h
    have hd := (digitChar_spec d (h d (List.mem_cons_self d T))).2
    simp only [List.map_cons, List.foldl_cons, hd]
    exact ih (acc * 10 + d) (fun x hx => h x (List.mem_cons_of_mem d hx))

/-- The base-10 left fold over the reversed little-endian digit list
recovers `ofDigits`. -/
theorem foldl_reverse_ofDigits :
    ∀ (L : List Nat) (acc : Nat),
      L.reverse.foldl (fun a d => a * 10 + d) acc
        = acc * 10 ^ L.length + Nat.ofDigits 10 L := by
  intro L
  induction L with
  | nil => intro acc; simp
  | cons d T ih =>
    intro acc
    simp only [List.reverse_cons, List.foldl_append, List.foldl_cons, List.foldl_nil, ih,
      List.length_cons, Nat.ofDigits_cons, pow_succ]
    ring

/-- Every character of the canonical rendering of a natural is a decimal
digit. -/
theorem natDecimalChars_digits (n : Nat) :
    ∀ c ∈ natDecimalChars n, c.isDigit = true := by
  intro c hc
  unfold natDecimalChars at hc
  by_cases h0 : n = 0
  · simp [h0] at hc
    subst hc; decide
  · rw [if_neg h0] at hc
    obtain ⟨d, hdmem, hdc⟩ := List.mem_map.mp hc
    have hd10 : d < 10 :=
      Nat.digits_lt_base (by norm_num) (List.mem_reverse.mp hdmem)
    rw [← hdc]
    exact (digitChar_spec d hd10).1

/-- The digit parser inverts the canonical rendering of a natural. -/
theorem parseNat_natDecimalChars (n : Nat) : parseNat (natDecimalChars n) = some n := by
  by_cases h0 : n = 0
  · subst h0; decide
  · have hne : natDecimalChars n ≠ [] := by
      unfold natDecimalChars
      rw [if_neg h0]
      simp [Nat.digits_ne_nil_iff_ne_zero.mpr h0]
    rw [parseNat, if_neg hne]
    rw [parseNatCore_digits (natDecimalChars n) 0 (natDecimalChars_digits n)]
    unfold natDecimalChars
    rw [if_neg h0]
    rw [foldl_digitChar ((Nat.digits 10 n).reverse) 0
      (fun d hd => Nat.digits_lt_base (by norm_num) (List.mem_reverse.mp hd))]
    rw [foldl_reverse_ofDigits (Nat.digits 10 n) 0]
    simp [Nat.ofDigits_digits]


/-- On an all-digit list the signed parser takes its unsigned branch. -/
theorem parseSigned_digits (cs : List Char) (h : ∀ c ∈ cs, c.isDigit = true) :
    parseSigned cs = Option.map (fun n : Nat => (n : Int)) (parseNat cs) := by
  cases cs with
  | nil => rfl
  | cons c rest =>
    have hc := h c (List.mem_cons_self c rest)
    have h1 : c ≠ '+' := fun he => absurd (he ▸ hc) (by decide)
    have h2 : c ≠ '-' := fun he => absurd (he ▸ hc) (by decide)
    simp only [parseSigned, if_neg h1, if_neg h2]

/-- The minus-sign branch of the signed parser. -/
theorem parseSigned_neg_cons (cs : List Char) :
    parseSigned ('-' :: cs) = Option.map (fun n : Nat => -(n : Int)) (parseNat cs) := by
  simp [parseSigned]

/-- The signed parser inverts the canonical rendering of any integer. -/
theorem parseSigned_intDecimalChars (v : Int) :
    parseSigned (intDecimalChars v) = some v := by
  by_cases hv : v < 0
  · unfold intDecimalChars
    rw [if_pos hv]
    rw [parseSigned_neg_cons, parseNat_natDecimalChars]
    simp only [Option.map_some']
    congr 1
    omega
  · unfold intDecimalChars
    rw [if_neg hv]
    rw [parseSigned_digits _ (natDecimalChars_digits v.toNat), parseNat_natDecimalChars]
    simp only [Option.map_some']
    congr 1
    omega

/-- Cast form of the unsigned range bound. -/
theorem twoPow_sub_one_cast (bits : Nat) :
    (((2 ^ bits : Nat) - 1 : Nat) : Int) = (2 ^ bits : Int) - 1 := by
  have hb : (1 : Nat) ≤ 2 ^ bits := Nat.one_le_two_pow
  rw [Nat.cast_sub hb]
  push_cast
  ring

/-- Round-trip through the signed Go parse: an in-range integer's decimal
rendering parses back to itself with no error. -/
theorem goParseInt_round (bits : Nat) (v : Int)
    (hlo : -(2 ^ (bits - 1) : Int) ≤ v) (hhi : v ≤ (2 ^ (bits - 1) : Int) - 1) :
    goParseInt bits (intDecimal v) = ⟨v, none⟩ := by
  simp only [goParseInt, intDecimal, toList_mk, parseSigned_intDecimalChars]
  rw [if_neg (not_lt.mpr hlo), if_neg (not_lt.mpr hhi)]

/-- Round-trip through the unsigned Go parse. -/
theorem goParseUint_round (bits : Nat) (v : Int) (h0 : 0 ≤ v)
    (hhi : v ≤ (2 ^ bits : Int) - 1) :
    goParseUint bits (intDecimal v) = ⟨v, none⟩ := by
  have hnot : ¬ v < 0 := not_lt.mpr h0
  have hle : ¬ ((2 ^ bits : Nat) - 1 < v.toNat) := by
    rw [not_lt, ← Nat.cast_le (α := Int), twoPow_sub_one_cast, Int.toNat_of_nonneg h0]
    exact hhi
  simp only [goParseUint, intDecimal, intDecimalChars, toList_mk]
  rw [if_neg hnot]
  simp only [parseNat_natDecimalChars]
  rw [if_neg hle]
  congr 1
  exact Int.toNat_of_nonneg h0

/-- Out-of-range signed rendering: the parse reports a range error. -/
theorem goParseInt_overflow (bits : Nat) (v : Int)
    (hout : v < -(2 ^ (bits - 1) : Int) ∨ (2 ^ (bits - 1) : Int) - 1 < v) :
    (goParseInt bits (intDecimal v)).err = some ParseErr.errRange := by
  simp only [goParseInt, intDecimal, toList_mk, parseSigned_intDecimalChars]
  rcases hout with h | h
  · rw [if_pos h]
  · have hp : (0 : Int) < 2 ^ (bits - 1) := pow_pos (by norm_num) _
    rw [if_neg (not_lt.mpr (by linarith)), if_pos h]

/-- A negative rendering is a syntax error for the unsigned parse, whose
grammar accepts no sign. -/
theorem goParseUint_neg (bits : Nat) (v : Int) (hv : v < 0) :
    goParseUint bits (intDecimal v) = ⟨0, some ParseErr.errSyn⟩ := by
  simp only [goParseUint, intDecimal, intDecimalChars, toList_mk]
  rw [if_pos hv]
  have hnone : parseNat ('-' :: natDecimalChars v.natAbs) = none := by
    rw [parseNat, if_neg (by simp)]
    simp only [parseNatCore]
    rw [if_neg (by decide)]
  rw [hnone]

/-- Above-range unsigned rendering: the parse reports a range error. -/
theorem goParseUint_overflow (bits : Nat) (v : Int) (h0 : 0 ≤ v)
    (hhi : (2 ^ bits : Int) - 1 < v) :
    (goParseUint bits (intDecimal v)).err = some ParseErr.errRange := by
  have hnot : ¬ v < 0 := not_lt.mpr h0
  have hlt : (2 ^ bits : Nat) - 1 < v.toNat := by
    rw [← Nat.cast_lt (α := Int), twoPow_sub_one_cast, Int.toNat_of_nonneg h0]
    exact hhi
  simp only [goParseUint, intDecimal, intDecimalChars, toList_mk]
  rw [if_neg hnot]
  simp only [parseNat_natDecimalChars]
  rw [if_pos hlt]

/-- Signedness and width of each integer destination type (machine width
modelled as 64). -/
def intBits : GoType → Option (Bool × Nat)
  | GoType.int => some (true, 64)
  | GoType.int8 => some (true, 8)
  | GoType.int16 => some (true, 16)
  | GoType.int32 => some (true, 32)
  | GoType.int64 => some (true, 64)
  | GoType.uint => some (false, 64)
  | GoType.uint8 => some (false, 8)
  | GoType.uint16 => some (false, 16)
  | GoType.uint32 => some (false, 32)
  | GoType.uint64 => some (false, 64)
  | _ => none

/-- Smallest representable value of a width. -/
def intMin (sg : Bool) (bits : Nat) : Int :=
  if sg then -(2 ^ (bits - 1) : Int) else 0

/-- Largest representable value of a width. -/
def intMax (sg : Bool) (bits : Nat) : Int :=
  if sg then (2 ^ (bits - 1) : Int) - 1 else (2 ^ bits : Int) - 1

/-- Destination cell value holding integer `v`. -/
def intGoValue (sg : Bool) (v : Int) : GoValue :=
  if sg then GoValue.vInt v else GoValue.vUint v.toNat

/-- Lookup of the unique binding of a one-entry form. -/
theorem lookup_single (name : String) (vs : List String) :
    List.lookup name [(name, vs)] = some vs := by
  simp [List.lookup]

/-- C6: for every supported integer destination width, signed or unsigned,
scanning the base-10 decimal string form of an integer `v` representable
in that width succeeds and writes exactly `v`. -/
theorem scan_int_round_trip (t : GoType) (sg : Bool) (bits : Nat)
    (ht : intBits t = some (sg, bits)) (v : Int)
    (hlo : intMin sg bits ≤ v) (hhi : v ≤ intMax sg bits)
    (name : String) (d : Nat) (store : Store) :
    ScanFormData [(name, [intDecimal v])] [⟨name, t, d⟩] store
      = (writeCell store d (intGoValue sg v), none) := by
  rw [scanFormData_single _ _ _ _ _ _ (lookup_single name [intDecimal v])]
  cases t with
  | int =>
    simp only [intBits, Option.some.injEq, Prod.mk.injEq] at ht
    obtain ⟨rfl, rfl⟩ := ht
    simp only [convertValue]
    rw [goParseInt_round 64 v hlo hhi]
    rfl
  | int8 =>
    simp only [intBits, Option.some.injEq, Prod.mk.injEq] at ht
    obtain ⟨rfl, rfl⟩ := ht
    simp only [convertValue]
    rw [goParseInt_round 8 v hlo hhi]
    rfl
  | int16 =>
    simp only [intBits, Option.some.injEq, Prod.mk.injEq] at ht
    obtain ⟨rfl, rfl⟩ := ht
    simp only [convertValue]
    rw [goParseInt_round 16 v hlo hhi]
    rfl
  | int32 =>
    simp only [intBits, Option.some.injEq, Prod.mk.injEq] at ht
    obtain ⟨rfl, rfl⟩ := ht
    simp only [convertValue]
    rw [goParseInt_round 32 v hlo hhi]
    rfl
  | int64 =>
    simp only [intBits, Option.some.injEq, Prod.mk.injEq] at ht
    obtain ⟨rfl, rfl⟩ := ht
    simp only [convertValue]
    rw [goParseInt_round 64 v hlo hhi]
    rfl
  | uint =>
    simp only [intBits, Option.some.injEq, Prod.mk.injEq] at ht
    obtain ⟨rfl, rfl⟩ := ht
    simp only [convertValue]
    rw [goParseUint_round 64 v hlo hhi]
    rfl
  | uint8 =>
    simp only [intBits, Option.some.injEq, Prod.mk.injEq] at ht
    obtain ⟨rfl, rfl⟩ := ht
    simp only [convertValue]
    rw [goParseUint_round 8 v hlo hhi]
    rfl
  | uint16 =>
    simp only [intBits, Option.some.injEq, Prod.mk.injEq] at ht
    obtain ⟨rfl, rfl⟩ := ht
    simp only [convertValue]
    rw [goParseUint_round 16 v hlo hhi]
    rfl
  | uint32 =>
    simp only [intBits, Option.some.injEq, Prod.mk.injEq] at ht
    obtain ⟨rfl, rfl⟩ := ht
    simp only [convertValue]
    rw [goParseUint_round 32 v hlo hhi]
    rfl
  | uint64 =>
    simp only [intBits, Option.some.injEq, Prod.mk.injEq] at ht
    obtain ⟨rfl, rfl⟩ := ht
    simp only [convertValue]
    rw [goParseUint_round 64 v hlo hhi]
    rfl
  | bool => exact Option.noConfusion ht
  | string => exact Option.noConfusion ht
  | unsupported => exact Option.noConfusion ht

/-- Witness for C6 at a concrete input: -5 is representable in int8 and
round-trips through the scan. -/
theorem scan_int_round_trip_witness :
    ScanFormData [("a", [intDecimal (-5)])] [⟨"a", GoType.int8, 0⟩] store0
      = (writeCell store0 0 (intGoValue true (-5)), none) :=
  scan_int_round_trip GoType.int8 true 8 rfl (-5) (by decide) (by decide) "a" 0 store0

/-- Outcome of a signed switch arm on an out-of-range rendering, as used
for the overflow theorem: the scan's error wraps the range failure. -/
theorem scan_int_overflow_signed (bits : Nat) (v : Int) (name : String) (d : Nat)
    (store : Store)
    (hout : v < -(2 ^ (bits - 1) : Int) ∨ (2 ^ (bits - 1) : Int) - 1 < v) :
    (match signedArm (goParseInt bits (intDecimal v)) with
      | ConvOutcome.ok v => (writeCell store d v, (none : Option ScanError))
      | ConvOutcome.failWrite v sub =>
        (writeCell store d v, some (scanErrorIncompatibleValue 0 name sub))
      | ConvOutcome.failNoWrite sub => (store, some (scanErrorIncompatibleValue 0 name sub))
      | ConvOutcome.failType => (store, some (scanErrorIncompatibleType 0 name))).2
      = some (scanErrorIncompatibleValue 0 name (SubError.parseFail ParseErr.errRange)) := by
  have herr := goParseInt_overflow bits v hout
  cases hgp : goParseInt bits (intDecimal v) with
  | mk pv perr =>
    rw [hgp] at herr
    have h2 : perr = some ParseErr.errRange := herr
    subst h2
    rfl

/-- Outcome of an unsigned switch arm on an above-range rendering. -/
theorem scan_int_overflow_unsigned (bits : Nat) (v : Int) (name : String) (d : Nat)
    (store : Store) (h0 : 0 ≤ v) (hhi : (2 ^ bits : Int) - 1 < v) :
    (match unsignedArm (goParseUint bits (intDecimal v)) with
      | ConvOutcome.ok v => (writeCell store d v, (none : Option ScanError))
      | ConvOutcome.failWrite v sub =>
        (writeCell store d v, some (scanErrorIncompatibleValue 0 name sub))
      | ConvOutcome.failNoWrite sub => (store, some (scanErrorIncompatibleValue 0 name sub))
      | ConvOutcome.failType => (store, some (scanErrorIncompatibleType 0 name))).2
      = some (scanErrorIncompatibleValue 0 name (SubError.parseFail ParseErr.errRange)) := by
  have herr := goParseUint_overflow bits v h0 hhi
  cases hgp : goParseUint bits (intDecimal v) with
  | mk pv perr =>
    rw [hgp] at herr
    have h2 : perr = some ParseErr.errRange := herr
    subst h2
    rfl

/-- C7: scanning the decimal rendering of a value outside the destination
width's representable range fails with kind `incompatibleValue` wrapping
the underlying parse failure as the sub-error. -/
theorem scan_int_overflow (t : GoType) (sg : Bool) (bits : Nat)
    (ht : intBits t = some (sg, bits)) (v : Int)
    (hout : v < intMin sg bits ∨ intMax sg bits < v)
    (name : String) (d : Nat) (store : Store) :
    ∃ pe : ParseErr,
      (ScanFormData [(name, [intDecimal v])] [⟨name, t, d⟩] store).2
        = some (scanErrorIncompatibleValue 0 name (SubError.parseFail pe)) := by
  rw [scanFormData_single _ _ _ _ _ _ (lookup_single name [intDecimal v])]
  cases t with
  | int =>
    simp only [intBits, Option.some.injEq, Prod.mk.injEq] at ht
    obtain ⟨rfl, rfl⟩ := ht
    exact ⟨ParseErr.errRange, scan_int_overflow_signed 64 v name d store hout⟩
  | int8 =>
    simp only [intBits, Option.some.injEq, Prod.mk.injEq] at ht
    obtain ⟨rfl, rfl⟩ := ht
    exact ⟨ParseErr.errRange, scan_int_overflow_signed 8 v name d store hout⟩
  | int16 =>
    simp only [intBits, Option.some.injEq, Prod.mk.injEq] at ht
    obtain ⟨rfl, rfl⟩ := ht
    exact ⟨ParseErr.errRange, scan_int_overflow_signed 16 v name d store hout⟩
  | int32 =>
    simp only [intBits, Option.some.injEq, Prod.mk.injEq] at ht
    obtain ⟨rfl, rfl⟩ := ht
    exact ⟨ParseErr.errRange, scan_int_overflow_signed 32 v name d store hout⟩
  | int64 =>
    simp only [intBits, Option.some.injEq, Prod.mk.injEq] at ht
    obtain ⟨rfl, rfl⟩ := ht
    exact ⟨ParseErr.errRange, scan_int_overflow_signed 64 v name d store hout⟩
  | uint =>
    simp only [intBits, Option.some.injEq, Prod.mk.injEq] at ht
    obtain ⟨rfl, rfl⟩ := ht
    rcases hout with hneg | hover
    · refine ⟨ParseErr.errSyn, ?_⟩
      simp only [convertValue]
      rw [goParseUint_neg 64 v hneg]
      rfl
    · have h0 : (0 : Int) ≤ v := le_trans (by norm_num [intMax]) (le_of_lt hover)
      exact ⟨ParseErr.errRange, scan_int_overflow_unsigned 64 v name d store h0 hover⟩
  | uint8 =>
    simp only [intBits, Option.some.injEq, Prod.mk.injEq] at ht
    obtain ⟨rfl, rfl⟩ := ht
    rcases hout with hneg | hover
    · refine ⟨ParseErr.errSyn, ?_⟩
      simp only [convertValue]
      rw [goParseUint_neg 8 v hneg]
      rfl
    · have h0 : (0 : Int) ≤ v := le_trans (by norm_num [intMax]) (le_of_lt hover)
      exact ⟨ParseErr.errRange, scan_int_overflow_unsigned 8 v name d store h0 hover⟩
  | uint16 =>
    simp only [intBits, Option.some.injEq, Prod.mk.injEq] at ht
    obtain ⟨rfl, rfl⟩ := ht
    rcases hout with hneg | hover
    · refine ⟨ParseErr.errSyn, ?_⟩
      simp only [convertValue]
      rw [goParseUint_neg 16 v hneg]
      rfl
    · have h0 : (0 : Int) ≤ v := le_trans (by norm_num [intMax]) (le_of_lt hover)
      exact ⟨ParseErr.errRange, scan_int_overflow_unsigned 16 v name d store h0 hover⟩
  | uint32 =>
    simp only [intBits, Option.some.injEq, Prod.mk.injEq] at ht
    obtain ⟨rfl, rfl⟩ := ht
    rcases hout with hneg | hover
    · refine ⟨ParseErr.errSyn, ?_⟩
      simp only [convertValue]
      rw [goParseUint_neg 32 v hneg]
      rfl
    · have h0 : (0 : Int) ≤ v := le_trans (by norm_num [intMax]) (le_of_lt hover)
      exact ⟨ParseErr.errRange, scan_int_overflow_unsigned 32 v name d store h0 hover⟩
  | uint64 =>
    simp only [intBits, Option.some.injEq, Prod.mk.injEq] at ht
    obtain ⟨rfl, rfl⟩ := ht
    rcases hout with hneg | hover
    · refine ⟨ParseErr.errSyn, ?_⟩
      simp only [convertValue]
      rw [goParseUint_neg 64 v hneg]
      rfl
    · have h0 : (0 : Int) ≤ v := le_trans (by norm_num [intMax]) (le_of_lt hover)
      exact ⟨ParseErr.errRange, scan_int_overflow_unsigned 64 v name d store h0 hover⟩
  | bool => exact Option.noConfusion ht
  | string => exact Option.noConfusion ht
  | unsupported => exact Option.noConfusion ht

/-- Witness for C7 at a concrete input: 300 exceeds the uint8 range. -/
theorem scan_int_overflow_witness :
    ∃ pe : ParseErr,
      (ScanFormData [("a", [intDecimal 300])] [⟨"a", GoType.uint8, 0⟩] store0).2
        = some (scanErrorIncompatibleValue 0 "a" (SubError.parseFail pe)) :=
  scan_int_overflow GoType.uint8 false 8 rfl 300 (Or.inr (by decide)) "a" 0 store0

end Nethelper
